import Mathlib

/-!
Verification of the row-filter, filename-sanitization and pagination logic of
the Lucky Dog Animal Rescue portal scraper (src/images.py, the class variant,
and src/bin/images.py, the free-function variant).

Python strings are modelled as lists of characters.  The fragment of Python
regular expressions that the scripts use (literal characters, the wildcard
dot, and the Kleene star on a one-character atom) is modelled by a small
pattern type with a parser and a backtracking matcher; patterns outside this
fragment are rejected by the parser (Python would raise or use richer
semantics there, so the theorems that quantify over configurable pattern
strings carry a hypothesis that the pattern parses in the fragment).

A BeautifulSoup table cell is abstracted to the two observations the code
makes of it: the text returned by get_text() and the result of find("a")
together with that anchor's attribute dictionary.
-/

set_option maxRecDepth 8000

namespace LDAR

/-- Python strings as lists of characters. -/
abbrev Str := List Char

/-- A one-character regex atom: a literal character, or the wildcard dot. -/
inductive RAtom where
  | lit (c : Char)
  | any
deriving DecidableEq, Repr

/-- A regex item: a single atom, or a starred atom. -/
inductive RItem where
  | atom (a : RAtom)
  | star (a : RAtom)
deriving DecidableEq, Repr

/-- Characters of Python re whose meaning lies outside the modelled fragment. -/
def metachar (c : Char) : Bool :=
  c == '\\' || c == '+' || c == '?' || c == '(' || c == ')' ||
  c == '[' || c == ']' || c == '\x7b' || c == '\x7d' || c == '|' ||
  c == '^' || c == '$'

/-- A character that the parser turns into a literal atom. -/
def plainChar (c : Char) : Bool :=
  !(metachar c) && !(c == '.') && !(c == '*')

/-- Parser for the modelled regex fragment.  The accumulator holds the items
read so far, most recent first; a star is attached to the preceding atom,
as in Python, and is an error when there is none or when it would stack. -/
def parseLoop : Str → List RItem → Option (List RItem)
  | [], acc => some acc.reverse
  | c :: rest, acc =>
    if c == '*' then
      match acc with
      | RItem.atom a :: acc2 => parseLoop rest (RItem.star a :: acc2)
      | _ => none
    else if c == '.' then
      parseLoop rest (RItem.atom RAtom.any :: acc)
    else if metachar c then
      none
    else
      parseLoop rest (RItem.atom (RAtom.lit c) :: acc)

/-- Parse a whole pattern string. -/
def parsePattern (p : Str) : Option (List RItem) :=
  parseLoop p []

/-- Whether an atom matches one character.  Without DOTALL the dot matches
every character except the newline; with DOTALL it matches every character. -/
def atomMatch (dotall : Bool) (a : RAtom) (c : Char) : Bool :=
  match a with
  | RAtom.lit c0 => c == c0
  | RAtom.any => dotall || !(c == '\n')

/-- The remainders a starred atom can leave after consuming one or more
matching characters, in consumption order. -/
def starTails (dotall : Bool) (a : RAtom) : Str → List Str
  | [] => []
  | c :: s => if atomMatch dotall a c then s :: starTails dotall a s else []

/-- The possible remainders after one item consumes part of the string:
an atom eats exactly one matching character, a starred atom eats any
number of consecutive matching characters, zero included. -/
def itemRemainders (dotall : Bool) (it : RItem) (s : Str) : List Str :=
  match it with
  | RItem.atom a =>
    match s with
    | [] => []
    | c :: s2 => if atomMatch dotall a c then [s2] else []
  | RItem.star a => s :: starTails dotall a s

/-- Backtracking matcher: does some prefix of the string match the whole
item sequence?  This is the boolean content of Python re.match. -/
def matchSeq (dotall : Bool) : List RItem → Str → Bool
  | [], _ => true
  | it :: rs, s =>
    (itemRemainders dotall it s).any (fun t => matchSeq dotall rs t)

/-- Model of bool(re.match(pattern, s)) (with the given DOTALL flag) on the
modelled fragment; a pattern outside the fragment matches nothing here. -/
def reMatch (dotall : Bool) (pattern s : Str) : Bool :=
  match parsePattern pattern with
  | some items => matchSeq dotall items s
  | none => false

/-- Worker for removeSub, structurally recursive on a fuel argument that
stays at least the string length: a matched occurrence is skipped whole,
otherwise the scan advances one character. -/
def removeSubAux (pat : Str) : Nat → Str → Str
  | _, [] => []
  | 0, s => s
  | fuel + 1, c :: rest =>
    if pat.isPrefixOf (c :: rest) ∧ pat ≠ [] then
      removeSubAux pat fuel ((c :: rest).drop pat.length)
    else
      c :: removeSubAux pat fuel rest

/-- Model of Python str.replace(pat, ""): delete the leftmost occurrences
of pat, scanning left to right without overlap. -/
def removeSub (pat : Str) (s : Str) : Str :=
  removeSubAux pat s.length s

/-- The characters kept by re.sub applied with the class complement of
a-z, A-Z, 0-9 and the hyphen (the sanitizer's last step). -/
def isFilenameChar (c : Char) : Bool :=
  decide ('a' ≤ c ∧ c ≤ 'z') || decide ('A' ≤ c ∧ c ≤ 'Z') ||
  decide ('0' ≤ c ∧ c ≤ '9') || c == '-'

/-- An anchor element as the code observes it: its attribute dictionary,
as an association list from attribute name to value. -/
structure AnchorTag where
  attrs : List (Str × Str)
deriving DecidableEq, Repr

/-- A table cell (bs4 Tag) as the code observes it: the text of get_text()
and the first anchor descendant that find("a") returns, if any. -/
structure Tag where
  text : Str
  anchor : Option AnchorTag
deriving DecidableEq, Repr, Inhabited

/-- A candidate link, the dict with keys href and filename built per match. -/
structure LinkInfo where
  href : Str
  filename : Str
deriving DecidableEq, Repr

/-- The attribute name looked up on the anchor. -/
def hrefKey : Str := "href".data

/-- sanitize from src/images.py lines 77-84 (identical in src/bin/images.py
lines 66-73): drop newlines, drop the substring Adopted, prepend the
previous cell's text and a hyphen, then keep only filename characters. -/
def sanitize (html : Str) (previous : Tag) : Str :=
  let clean := removeSub "\n".data html
  let clean2 := removeSub "Adopted".data clean
  let clean3 := previous.text ++ "-".data ++ clean2
  clean3.filter isFilenameChar

/-- The full pattern string built for the year test, f-string style:
".*" ++ year_pattern ++ ".*", matched with re.DOTALL. -/
def yearFull (year_pattern : Str) : Str :=
  ".*".data ++ year_pattern ++ ".*".data

/-- The per-pair body of the loop of process_table_data: given the previous
cell and the current cell, the candidate the row contributes, if any.
The current text must match the hold pattern (re.match, anchored at the
start, no DOTALL) and the dotted-and-starred year pattern (re.match with
DOTALL); then the previous cell must yield an anchor from find("a") whose
attribute dictionary contains href.  Any failure yields none, silently. -/
def emitPair (hold_str year_pattern : Str) (prev td : Tag) : Option LinkInfo :=
  if reMatch false hold_str td.text &&
      reMatch true (yearFull year_pattern) td.text then
    match prev.anchor with
    | none => none
    | some tag_a =>
      match tag_a.attrs.lookup hrefKey with
      | none => none
      | some hv => some { href := hv, filename := sanitize td.text prev }
  else none

/-- The loop of process_table_data (src/images.py lines 144-159,
src/bin/images.py lines 137-150), with the running previous slot made
explicit.  The slot starts as none and is overwritten with the current
cell after every iteration, whatever the match outcome. -/
def processAux (hold_str year_pattern : Str) :
    Option Tag → List Tag → List LinkInfo
  | _, [] => []
  | previous, td :: rest =>
    (if reMatch false hold_str td.text &&
        reMatch true (yearFull year_pattern) td.text then
      match previous with
      | none => []
      | some prev =>
        match prev.anchor with
        | none => []
        | some tag_a =>
          match tag_a.attrs.lookup hrefKey with
          | none => []
          | some hv => [{ href := hv, filename := sanitize td.text prev }]
    else []) ++ processAux hold_str year_pattern (some td) rest

/-- process_table_data: scan the cells with an initially empty previous
slot and collect the candidate links in encounter order. -/
def process_table_data (hold_str year_pattern : Str) (tds : List Tag) :
    List LinkInfo :=
  processAux hold_str year_pattern none tds

/-- The command-line arguments the pagination code reads, after docopt and
int() parsing; a field is none when the key is absent so that dict.get
falls back to its default. -/
structure Args where
  startPage : Option Int
  hold : Option Str
  yearPattern : Option Str

/-- Python range(a, b) over integers. -/
def pyRange (a b : Int) : List Int :=
  (List.range (b - a).toNat).map (fun (k : Nat) => a + (k : Int))

/-- The page loop of RescuePortal.run (src/images.py lines 179-191):
start at args.get("--start-page", 1), stop before the fixed bound 45, and
on each index process that page's cells with the configured patterns.
Page fetching is abstracted by the function from index to cell list. -/
def RescuePortal_run (args : Args) (pageTds : Int → List Tag) :
    List (Int × List LinkInfo) :=
  (pyRange (args.startPage.getD 1) 45).map
    (fun i => (i, process_table_data (args.hold.getD "Hold".data)
      (args.yearPattern.getD "-24-".data) (pageTds i)))

/-- The page loop of main in src/bin/images.py lines 175-187: start at
args.get("--start-page", 1), stop before the fixed bound 120, and process
each page with the hardcoded patterns Hold and -21-. -/
def main_run (startArg : Option Int) (pageTds : Int → List Tag) :
    List (Int × List LinkInfo) :=
  (pyRange (startArg.getD 1) 120).map
    (fun i => (i, process_table_data "Hold".data "-21-".data (pageTds i)))

/-- Spec-side containment test: the pattern occurs somewhere in the string
as a literal substring. -/
def containsSub (pat : Str) : Str → Bool
  | [] => pat.isPrefixOf []
  | c :: s => pat.isPrefixOf (c :: s) || containsSub pat s

/-- Spec-side per-pair candidate, written from the spec's invariant: a
candidate is produced exactly when the current text matches the hold
pattern, the current text contains the year token as a substring, and the
previous cell carries an anchor with an href attribute. -/
def candidateFor (hold_str year_pattern : Str) (prev td : Tag) :
    Option LinkInfo :=
  if reMatch false hold_str td.text && containsSub year_pattern td.text then
    (prev.anchor.bind (fun a => a.attrs.lookup hrefKey)).map
      (fun hv => { href := hv, filename := sanitize td.text prev })
  else none

/-- Spec-side filename derivation, written from the spec's words: remove
every newline character, remove every occurrence of Adopted, prepend the
previous text and a separator hyphen, then keep only the characters in
the class a-z, A-Z, 0-9, hyphen. -/
def filenameSpec (prevText curText : Str) : Str :=
  (prevText ++ "-".data ++
    removeSub "Adopted".data (curText.filter (fun c => !(c == '\n')))).filter
    isFilenameChar

/-- The sequence of literal items a plain string parses to. -/
def litItems (y : Str) : List RItem :=
  y.map (fun c => RItem.atom (RAtom.lit c))

/-- Sample anchor with a filled href, as found in a name cell. -/
def anchorBuddy : AnchorTag := { attrs := [(hrefKey, "animal7".data)] }

/-- Sample anchor whose href attribute is present but empty. -/
def anchorEmpty : AnchorTag := { attrs := [(hrefKey, [])] }

/-- A name cell holding a link. -/
def tagAnchor : Tag := { text := "Buddy".data, anchor := some anchorBuddy }

/-- A status cell matching hold and year, with a line break inside. -/
def tagHold24 : Tag := { text := "Hold-24-\nAdopted".data, anchor := none }

/-- A status cell matching hold and year, single line. -/
def tagHold24b : Tag := { text := "Hold-24-".data, anchor := none }

/-- A cell matching nothing. -/
def tagPlain : Tag := { text := "Fluffy".data, anchor := none }

/-- A name cell whose anchor has an empty href value. -/
def tagEmptyHref : Tag := { text := "Rex".data, anchor := some anchorEmpty }

/-- A status cell whose hold keyword sits after a leading line break. -/
def tagHoldNL : Tag := { text := "\nHold-24-".data, anchor := none }

/-- A status cell whose text contains the tokens only after the start. -/
def tagNoHold : Tag := { text := "xHold-21-".data, anchor := none }

/-- A cell matched only thanks to regex wildcard dots in the patterns. -/
def tagHxld : Tag := { text := "Hxld-2X-".data, anchor := none }

/-- The previous cell of the worked filename example. -/
def tagBuddy : Tag := { text := "Buddy123".data, anchor := none }

/-- The candidate emitted for tagAnchor followed by tagHold24. -/
def linkBuddy : LinkInfo :=
  { href := "animal7".data, filename := "Buddy-Hold-24-".data }

/-- An empty page oracle for the pagination theorems. -/
def pagesEmpty : Int → List Tag := fun _ => []

/-- A concrete argument record with a start page of 5. -/
def args0 : Args := { startPage := some 5, hold := none, yearPattern := none }

/-- Projecting the page indices out of a run of the page loop. -/
theorem map_fst_pair {γ : Type} (L : List Int) (f : Int → γ) :
    (L.map (fun i => (i, f i))).map Prod.fst = L := by
  induction L with
  | nil => rfl
  | cons a L ih => simp [ih]

theorem litItems_nil : litItems [] = [] := rfl

theorem litItems_cons (c : Char) (y : Str) :
    litItems (c :: y) = RItem.atom (RAtom.lit c) :: litItems y := rfl

/-- One literal atom step of the matcher. -/
theorem matchSeq_lit_cons (dotall : Bool) (c : Char) (rs : List RItem)
    (d : Char) (s : Str) :
    matchSeq dotall (RItem.atom (RAtom.lit c) :: rs) (d :: s) = true ↔
      c = d ∧ matchSeq dotall rs s = true := by
  simp only [matchSeq, itemRemainders, atomMatch]
  by_cases hdc : d = c
  · subst hdc
    simp
  · have hb : (d == c) = false := beq_eq_false_iff_ne.mpr hdc
    have hcd : ¬ (c = d) := fun he => hdc he.symm
    simp [hb, hcd]

/-- A sequence of literal atoms matches exactly when it is a prefix. -/
theorem matchSeq_litItems (dotall : Bool) (y : Str) :
    ∀ s : Str, matchSeq dotall (litItems y) s = true ↔ y <+: s := by
  induction y with
  | nil => intro s; simp [litItems_nil, matchSeq]
  | cons c y ih =>
    intro s
    cases s with
    | nil => simp [litItems_cons, matchSeq, itemRemainders]
    | cons d s =>
      rw [litItems_cons, matchSeq_lit_cons, ih s, List.cons_prefix_cons]

/-- A DOTALL starred dot matches any string. -/
theorem matchSeq_starAny (s : Str) :
    matchSeq true [RItem.star RAtom.any] s = true := by
  simp [matchSeq, itemRemainders]

/-- Literal atoms followed by a DOTALL starred dot match exactly the
strings with the literal word as a prefix. -/
theorem matchSeq_lit_star (y : Str) :
    ∀ s : Str, matchSeq true (litItems y ++ [RItem.star RAtom.any]) s = true
      ↔ y <+: s := by
  induction y with
  | nil => intro s; simp [litItems_nil, matchSeq_starAny]
  | cons c y ih =>
    intro s
    cases s with
    | nil => simp [litItems_cons, matchSeq, itemRemainders]
    | cons d s =>
      rw [litItems_cons, List.cons_append, matchSeq_lit_cons, ih s,
        List.cons_prefix_cons]

/-- The remainders offered by a DOTALL starred dot are the suffixes. -/
theorem mem_starTails_any (s : Str) :
    ∀ t : Str, t ∈ (s :: starTails true RAtom.any s) ↔ t <:+ s := by
  induction s with
  | nil =>
    intro t
    simp [starTails]
  | cons c s ih =>
    intro t
    have ha : atomMatch true RAtom.any c = true := rfl
    simp only [starTails, ha, if_true, List.mem_cons, ih t,
      List.suffix_cons_iff]

/-- A leading DOTALL starred dot scans: the rest may start at any suffix. -/
theorem matchSeq_starAny_cons (rs : List RItem) (s : Str) :
    matchSeq true (RItem.star RAtom.any :: rs) s = true ↔
      ∃ t, t <:+ s ∧ matchSeq true rs t = true := by
  simp only [matchSeq, itemRemainders, List.any_eq_true]
  constructor
  · rintro ⟨t, htm, hm⟩
    exact ⟨t, (mem_starTails_any s t).mp htm, hm⟩
  · rintro ⟨t, hts, hm⟩
    exact ⟨t, (mem_starTails_any s t).mpr hts, hm⟩

/-- The compiled form of ".*" ++ word ++ ".*" under DOTALL matches exactly
the strings containing the word as a substring. -/
theorem matchSeq_yearItems (y s : Str) :
    matchSeq true
        (RItem.star RAtom.any :: (litItems y ++ [RItem.star RAtom.any])) s
        = true ↔ y <:+: s := by
  rw [matchSeq_starAny_cons, List.infix_iff_prefix_suffix]
  constructor
  · rintro ⟨t, hts, hm⟩
    exact ⟨t, (matchSeq_lit_star y t).mp hm, hts⟩
  · rintro ⟨t, hyt, hts⟩
    exact ⟨t, hts, (matchSeq_lit_star y t).mpr hyt⟩

/-- Parsing walks over a block of plain characters by pushing literal
atoms onto the accumulator. -/
theorem parseLoop_plain : ∀ y : Str, (∀ c ∈ y, plainChar c = true) →
    ∀ (t : Str) (acc : List RItem),
      parseLoop (y ++ t) acc = parseLoop t ((litItems y).reverse ++ acc) := by
  intro y
  induction y with
  | nil => intro _ t acc; simp [litItems_nil]
  | cons c y ih =>
    intro hy t acc
    have hc : plainChar c = true := hy c (List.mem_cons_self c y)
    simp only [plainChar, Bool.and_eq_true, Bool.not_eq_true'] at hc
    obtain ⟨⟨hm, hd⟩, hs⟩ := hc
    have ihy : ∀ d ∈ y, plainChar d = true :=
      fun d hdm => hy d (List.mem_cons_of_mem c hdm)
    simp only [List.cons_append, parseLoop, hm, hd, hs, Bool.false_eq_true,
      if_false, List.append_eq]
    rw [ih ihy t (RItem.atom (RAtom.lit c) :: acc)]
    simp [litItems_cons, List.append_assoc]

/-- A plain string parses to its sequence of literal atoms. -/
theorem parsePattern_plain (y : Str) (hy : ∀ c ∈ y, plainChar c = true) :
    parsePattern y = some (litItems y) := by
  have h := parseLoop_plain y hy [] []
  rw [List.append_nil] at h
  simp only [parsePattern, h, parseLoop, List.append_nil,
    List.reverse_reverse]

/-- The pattern built for the year test parses to a starred dot, the
literal token, and a starred dot, provided the token is plain. -/
theorem parsePattern_yearFull (y : Str) (hy : ∀ c ∈ y, plainChar c = true) :
    parsePattern (yearFull y) = some
      (RItem.star RAtom.any :: (litItems y ++ [RItem.star RAtom.any])) := by
  have e1 : (".*".data : Str) = '.' :: '*' :: [] := rfl
  unfold parsePattern yearFull
  rw [e1]
  simp only [List.cons_append, List.nil_append]
  rw [show parseLoop ('.' :: '*' :: (y ++ '.' :: '*' :: [])) [] =
      parseLoop (y ++ '.' :: '*' :: []) [RItem.star RAtom.any] from rfl]
  rw [parseLoop_plain y hy]
  rw [show parseLoop ('.' :: '*' :: [])
        ((litItems y).reverse ++ [RItem.star RAtom.any]) =
      some ((RItem.star RAtom.any ::
        ((litItems y).reverse ++ [RItem.star RAtom.any])).reverse) from rfl]
  simp [List.reverse_cons, List.reverse_append, List.append_assoc]

/-- re.match with a plain pattern succeeds exactly on the strings having
the pattern as a prefix: the match is anchored at the start. -/
theorem reMatch_plain_iff (dotall : Bool) (h s : Str)
    (hh : ∀ c ∈ h, plainChar c = true) :
    reMatch dotall h s = true ↔ h <+: s := by
  simp only [reMatch, parsePattern_plain h hh]
  exact matchSeq_litItems dotall h s

/-- re.match with DOTALL on ".*" ++ token ++ ".*" succeeds exactly on the
strings containing the plain token as a substring, line breaks included. -/
theorem reMatch_year_iff (y s : Str) (hy : ∀ c ∈ y, plainChar c = true) :
    reMatch true (yearFull y) s = true ↔ y <:+: s := by
  simp only [reMatch, parsePattern_yearFull y hy]
  exact matchSeq_yearItems y s

/-- The spec-side containment test agrees with list infixhood. -/
theorem containsSub_iff (pat : Str) :
    ∀ s : Str, containsSub pat s = true ↔ pat <:+: s := by
  intro s
  induction s with
  | nil => simp [containsSub]
  | cons c s ih =>
    simp only [containsSub, Bool.or_eq_true, List.isPrefixOf_iff_prefix, ih,
      List.infix_cons_iff]

/-- Two booleans agreeing as propositions are equal. -/
theorem bool_eq_of_iff {a b : Bool} (h : a = true ↔ b = true) : a = b := by
  cases a <;> cases b <;> simp_all

/-- Removing a one-character substring is filtering that character out,
stated on the fueled worker. -/
theorem removeSubAux_singleton (a : Char) :
    ∀ (fuel : Nat) (s : Str), s.length ≤ fuel →
      removeSubAux [a] fuel s = s.filter (fun c => !(c == a)) := by
  intro fuel
  induction fuel with
  | zero =>
    intro s hs
    cases s with
    | nil => rfl
    | cons c rest => simp at hs
  | succ fuel ih =>
    intro s hs
    cases s with
    | nil => rfl
    | cons c rest =>
      rw [removeSubAux]
      by_cases hac : a = c
      · subst hac
        rw [if_pos ⟨by simp [List.isPrefixOf], by simp⟩]
        simp only [List.length_cons, List.length_nil, List.drop_succ_cons,
          List.drop_zero]
        rw [ih rest (by simpa using hs)]
        simp [List.filter_cons]
      · rw [if_neg (fun hcond => hac (by
          have h1 := hcond.1
          simp only [List.isPrefixOf, Bool.and_eq_true, beq_iff_eq] at h1
          exact h1.1))]
        rw [ih rest (by simp at hs; omega)]
        simp [List.filter_cons, Ne.symm hac, hac]

/-- Removing a one-character substring is filtering that character out. -/
theorem removeSub_singleton (a : Char) :
    ∀ s : Str, removeSub [a] s = s.filter (fun c => !(c == a)) :=
  fun s => removeSubAux_singleton a s.length s (Nat.le_refl _)

/-- One step of the scan: the cell block is the per-pair emission when a
previous cell exists, nothing otherwise, and the slot becomes the cell. -/
theorem processAux_cons (h y : Str) (previous : Option Tag) (td : Tag)
    (rest : List Tag) :
    processAux h y previous (td :: rest) =
      (match previous with
       | none => []
       | some prev => (emitPair h y prev td).toList) ++
        processAux h y (some td) rest := by
  cases previous with
  | none =>
    simp only [processAux]
    cases hc : (reMatch false h td.text &&
        reMatch true (yearFull y) td.text) <;> simp [hc]
  | some prev =>
    simp only [processAux, emitPair]
    cases hc : (reMatch false h td.text &&
        reMatch true (yearFull y) td.text)
    · simp [hc]
    · simp only [hc, if_true]
      cases prev.anchor with
      | none => simp
      | some tag_a =>
        cases hl : List.lookup hrefKey tag_a.attrs <;> simp [hl]

/-- The scan from a filled slot is the per-pair emission over the zip of
the cell list against its tail, the slot heading the first pair. -/
theorem processAux_some_eq (h y : Str) : ∀ (tds : List Tag) (p : Tag),
    processAux h y (some p) tds =
      ((p :: tds).zip tds).filterMap (fun q => emitPair h y q.1 q.2) := by
  intro tds
  induction tds with
  | nil => intro p; simp [processAux]
  | cons td rest ih =>
    intro p
    rw [processAux_cons]
    simp only [List.zip_cons_cons, List.filterMap_cons]
    cases he : emitPair h y p td <;> simp [he, ih td]

/-- process_table_data is the per-pair emission over adjacent cell pairs. -/
theorem process_eq_zip (h y : Str) (tds : List Tag) :
    process_table_data h y tds =
      (tds.zip tds.tail).filterMap (fun q => emitPair h y q.1 q.2) := by
  cases tds with
  | nil => rfl
  | cons td rest =>
    unfold process_table_data
    rw [processAux_cons, processAux_some_eq]
    simp

/-- Emission over a zip, re-indexed by position. -/
theorem zip_filterMap_getD {β : Type} (g : Tag × Tag → Option β) :
    ∀ (xs ys : List Tag),
      (xs.zip ys).filterMap g =
        (List.range (min xs.length ys.length)).filterMap
          (fun j => g (xs.getD j default, ys.getD j default)) := by
  intro xs
  induction xs with
  | nil => intro ys; simp
  | cons x xs ih =>
    intro ys
    cases ys with
    | nil => simp
    | cons y2 ys =>
      simp only [List.zip_cons_cons, List.filterMap_cons, List.length_cons]
      rw [show min (xs.length + 1) (ys.length + 1) =
          min xs.length ys.length + 1 by omega]
      rw [List.range_succ_eq_map, List.filterMap_cons, List.filterMap_map]
      have hfun : ((fun j =>
            g ((x :: xs).getD j default, (y2 :: ys).getD j default)) ∘
              Nat.succ) =
          fun j => g (xs.getD j default, ys.getD j default) := by
        funext j
        simp [Function.comp, List.getD_cons_succ]
      rw [hfun]
      simp only [List.getD_cons_zero]
      cases hg : g (x, y2) <;> simp [hg, ih ys]

/-- process_table_data, indexed by cell position: the candidate of the
cell at position j, when any, is emitted against the cell at j - 1, and
position 0 emits nothing. -/
theorem process_eq_range (h y : Str) (tds : List Tag) :
    process_table_data h y tds =
      (List.range tds.length).filterMap (fun j =>
        if j = 0 then none
        else emitPair h y (tds.getD (j - 1) default) (tds.getD j default)) := by
  rw [process_eq_zip, zip_filterMap_getD]
  cases tds with
  | nil => simp
  | cons td rest =>
    simp only [List.tail_cons, List.length_cons]
    rw [show min (rest.length + 1) rest.length = rest.length by omega]
    rw [List.range_succ_eq_map, List.filterMap_cons, List.filterMap_map]
    have hfun2 : ((fun j => if j = 0 then none
        else emitPair h y ((td :: rest).getD (j - 1) default)
          ((td :: rest).getD j default)) ∘ Nat.succ) =
        fun j => emitPair h y ((td :: rest).getD j default)
          (rest.getD j default) := by
      funext j
      simp [Function.comp, Nat.succ_ne_zero, List.getD_cons_succ,
        Nat.add_sub_cancel]
    rw [hfun2]
    simp

/-- Mapping a filterMap back into options is a sublist of the raw
emission stream: output order follows input order. -/
theorem filterMap_map_some_sublist {α β : Type} (f : α → Option β) :
    ∀ l : List α, List.Sublist ((l.filterMap f).map some) (l.map f) := by
  intro l
  induction l with
  | nil => simp
  | cons a l ih =>
    cases hf : f a with
    | none =>
      simp only [List.filterMap_cons, hf, List.map_cons]
      exact ih.cons none
    | some b =>
      simp only [List.filterMap_cons, hf, List.map_cons]
      exact ih.cons₂ (some b)

/-- Membership in the model of Python range over integers. -/
theorem mem_pyRange (a b i : Int) : i ∈ pyRange a b ↔ a ≤ i ∧ i < b := by
  unfold pyRange
  rw [List.mem_map]
  constructor
  · rintro ⟨k, hk, rfl⟩
    rw [List.mem_range] at hk
    omega
  · rintro ⟨h1, h2⟩
    refine ⟨(i - a).toNat, ?_, ?_⟩
    · rw [List.mem_range]
      omega
    · omega

/-- With a plain year token, the code-side per-pair emission coincides
with the spec-side candidate. -/
theorem emitPair_eq_candidateFor (h y : Str)
    (hy : ∀ c ∈ y, plainChar c = true) (prev td : Tag) :
    emitPair h y prev td = candidateFor h y prev td := by
  unfold emitPair candidateFor
  have hb : reMatch true (yearFull y) td.text = containsSub y td.text :=
    bool_eq_of_iff
      ((reMatch_year_iff y td.text hy).trans (containsSub_iff y td.text).symm)
  rw [hb]
  split
  · cases prev.anchor with
    | none => simp
    | some tag_a =>
      cases hl : List.lookup hrefKey tag_a.attrs <;> simp [hl]
  · rfl

/-- Claim C1: over every ordered cell sequence, a candidate link is
produced for a cell exactly when its text matches the hold pattern, its
text contains the year token, and the immediately preceding cell carries
an anchor with an href attribute; any failure contributes nothing and no
error is raised (the scan is total).  Stated as: the row filter equals
the spec-side candidate map over adjacent pairs, for a hold pattern in
the modelled regex fragment and a literal year token. -/
theorem c1_row_filter_iff (h y : Str) (hh : (parsePattern h).isSome = true)
    (hy : ∀ c ∈ y, plainChar c = true) (tds : List Tag) :
    process_table_data h y tds =
      (tds.zip tds.tail).filterMap (fun q => candidateFor h y q.1 q.2) := by
  rw [process_eq_zip]
  congr 1
  funext q
  exact emitPair_eq_candidateFor h y hy q.1 q.2

/-- Witness for C1 at the default patterns and a three-cell page. -/
theorem c1_row_filter_iff_witness :
    (parsePattern "Hold".data).isSome = true ∧
    (∀ c ∈ "-24-".data, plainChar c = true) ∧
    process_table_data "Hold".data "-24-".data
        [tagAnchor, tagHold24, tagPlain] =
      (([tagAnchor, tagHold24, tagPlain].zip
          ([tagAnchor, tagHold24, tagPlain] : List Tag).tail).filterMap
        (fun q => candidateFor "Hold".data "-24-".data q.1 q.2)) :=
  ⟨by decide, by decide,
    c1_row_filter_iff "Hold".data "-24-".data (by decide) (by decide)
      [tagAnchor, tagHold24, tagPlain]⟩

/-- Claim C2: the derived filename equals the spec formula (drop newlines
and the substring Adopted from the current text, prepend the previous
text and a hyphen, keep only characters in the class a-z, A-Z, 0-9,
hyphen), and the worked example yields Buddy123-Hold-24-. -/
theorem c2_filename_derivation :
    (∀ (html : Str) (prev : Tag),
      sanitize html prev = filenameSpec prev.text html) ∧
    sanitize "Hold-24-\nAdopted".data tagBuddy = "Buddy123-Hold-24-".data := by
  constructor
  · intro html prev
    simp only [sanitize, filenameSpec]
    rw [removeSub_singleton]
  · decide

/-- Claim C3 counterexample: a previous cell whose anchor carries an
empty href still yields a candidate on a double-matching row, with an
empty href in the output, contradicting the claim that a non-empty href
is required and that no candidate is emitted otherwise. -/
theorem c3_counterexample :
    process_table_data "Hold".data "-24-".data [tagEmptyHref, tagHold24b] =
      [{ href := [], filename := "Rex-Hold-24-".data }] := by
  decide

/-- Claim C3 (amended): on a double match the row filter only requires
the href attribute to be present on the previous cell's anchor; an empty
href value still produces a candidate, whose href is empty, and no error
is raised.  Only a missing anchor or attribute skips the row. -/
theorem c3_empty_href_emits (h y : Str) (prev cur : Tag) (a : AnchorTag)
    (rest : List Tag) (h1 : prev.anchor = some a)
    (h2 : a.attrs.lookup hrefKey = some [])
    (h3 : reMatch false h cur.text = true)
    (h4 : reMatch true (yearFull y) cur.text = true) :
    ∃ tl, process_table_data h y (prev :: cur :: rest) =
      { href := [], filename := sanitize cur.text prev } :: tl := by
  unfold process_table_data
  rw [processAux_cons, processAux_cons]
  have he : emitPair h y prev cur =
      some { href := [], filename := sanitize cur.text prev } := by
    unfold emitPair
    rw [h3, h4, h1]
    simp [h2]
  refine ⟨processAux h y (some cur) rest, ?_⟩
  simp [he]

/-- Witness for the amended C3 at the default patterns. -/
theorem c3_empty_href_emits_witness :
    tagEmptyHref.anchor = some anchorEmpty ∧
    anchorEmpty.attrs.lookup hrefKey = some [] ∧
    reMatch false "Hold".data tagHold24b.text = true ∧
    reMatch true (yearFull "-24-".data) tagHold24b.text = true ∧
    ∃ tl, process_table_data "Hold".data "-24-".data
        [tagEmptyHref, tagHold24b] =
      { href := [], filename := sanitize tagHold24b.text tagEmptyHref } :: tl :=
  ⟨rfl, by decide, by decide, by decide,
    c3_empty_href_emits "Hold".data "-24-".data tagEmptyHref tagHold24b
      anchorEmpty [] rfl (by decide) (by decide) (by decide)⟩

/-- Claim C4: the page loop runs from the configured start (default 1,
and 5 under a start-page argument of 5) up to the fixed exclusive bound,
45 in the class variant and 120 in the free-function variant, visiting
every index of the range in order whatever the pages contain, with no
early exit. -/
theorem c4_pagination (args : Args) (startArg : Option Int)
    (pageTds pageTds2 : Int → List Tag)
    (hh : (parsePattern (args.hold.getD "Hold".data)).isSome = true)
    (hy : (parsePattern
      (yearFull (args.yearPattern.getD "-24-".data))).isSome = true) :
    ((RescuePortal_run args pageTds).map Prod.fst =
      pyRange (args.startPage.getD 1) 45) ∧
    ((main_run startArg pageTds2).map Prod.fst =
      pyRange (startArg.getD 1) 120) ∧
    (∀ i : Int, i ∈ (main_run (some 5) pageTds2).map Prod.fst ↔
      5 ≤ i ∧ i < 120) ∧
    (((main_run (some 5) pageTds2).map Prod.fst).head? = some 5) := by
  refine ⟨map_fst_pair _ _, map_fst_pair _ _, ?_, ?_⟩
  · intro i
    rw [show (main_run (some 5) pageTds2).map Prod.fst = pyRange 5 120 from
      map_fst_pair _ _]
    exact mem_pyRange 5 120 i
  · rw [show (main_run (some 5) pageTds2).map Prod.fst = pyRange 5 120 from
      map_fst_pair _ _]
    decide

/-- Witness for C4 with defaulted patterns and empty pages. -/
theorem c4_pagination_witness :
    (parsePattern (args0.hold.getD "Hold".data)).isSome = true ∧
    (parsePattern
      (yearFull (args0.yearPattern.getD "-24-".data))).isSome = true ∧
    ((main_run (some 5) pagesEmpty).map Prod.fst).head? = some 5 :=
  ⟨by decide, by decide,
    (c4_pagination args0 (some 5) pagesEmpty pagesEmpty
      (by decide) (by decide)).2.2.2⟩

/-- Claim C5 counterexample: applying the sanitizer to its own output,
with the same previous cell, prepends the previous text again, so the
two-argument operation is not idempotent. -/
theorem c5_counterexample :
    sanitize (sanitize "Hold-24-\nAdopted".data tagBuddy) tagBuddy ≠
      sanitize "Hold-24-\nAdopted".data tagBuddy := by
  decide

/-- Claim C5 (amended): sanitization is total and deterministic, its
output only holds characters from the class a-z, A-Z, 0-9, hyphen, and
the output is a fixed point of the final character-removal step; it is
not idempotent as a two-argument operation, since reapplying it prepends
the previous cell text and hyphen again. -/
theorem c5_sanitize_total_charset :
    ∀ (html : Str) (prev : Tag),
      (∀ c ∈ sanitize html prev, isFilenameChar c = true) ∧
      (sanitize html prev).filter isFilenameChar = sanitize html prev := by
  intro html prev
  constructor
  · intro c hc
    simp only [sanitize] at hc
    exact List.of_mem_filter hc
  · apply List.filter_eq_self.mpr
    intro c hc
    simp only [sanitize] at hc
    exact List.of_mem_filter hc

/-- Witness for the amended C5 on the worked example. -/
theorem c5_sanitize_total_charset_witness :
    isFilenameChar 'B' = true ∧
    (sanitize "Hold-24-\nAdopted".data tagBuddy).filter isFilenameChar =
      sanitize "Hold-24-\nAdopted".data tagBuddy :=
  ⟨(c5_sanitize_total_charset "Hold-24-\nAdopted".data tagBuddy).1 'B'
      (by decide),
    (c5_sanitize_total_charset "Hold-24-\nAdopted".data tagBuddy).2⟩

/-- Claim C6 counterexample: the text consisting of a line break followed
by Hold-24- contains both default tokens, yet the hold predicate fails on
it, because re.match anchors at the start and the leading line break is
in the way: line breaks can prevent the hold predicate from matching. -/
theorem c6_counterexample :
    containsSub "Hold".data tagHoldNL.text = true ∧
    containsSub "-24-".data tagHoldNL.text = true ∧
    reMatch false "Hold".data tagHoldNL.text = false := by
  decide

/-- Claim C6 (amended): the year predicate is DOTALL and holds exactly
when the token occurs anywhere in the text, so embedded line breaks
never prevent it; the hold predicate holds exactly when the keyword is a
prefix of the text, so line breaks after the matched keyword are
harmless but a line break before it prevents the match. -/
theorem c6_predicates_line_breaks :
    ∀ t : Str,
      (reMatch true (yearFull "-24-".data) t = true ↔ "-24-".data <:+: t) ∧
      (reMatch false "Hold".data t = true ↔ "Hold".data <+: t) := by
  intro t
  exact ⟨reMatch_year_iff "-24-".data t (by decide),
    reMatch_plain_iff false "Hold".data t (by decide)⟩

/-- Claim C7: the lookback slot slides one position per cell, never per
match: the candidate possibly emitted at position j is always computed
against the cell at position j - 1, for every j from 1 on, whatever the
match outcomes were before. -/
theorem c7_lookback_slides (h y : Str)
    (hh : (parsePattern h).isSome = true)
    (hy : (parsePattern (yearFull y)).isSome = true) (tds : List Tag) :
    process_table_data h y tds =
      (List.range tds.length).filterMap (fun j =>
        if j = 0 then none
        else emitPair h y (tds.getD (j - 1) default) (tds.getD j default)) :=
  process_eq_range h y tds

/-- Witness for C7 on a two-cell page with the default patterns. -/
theorem c7_lookback_slides_witness :
    (parsePattern "Hold".data).isSome = true ∧
    (parsePattern (yearFull "-24-".data)).isSome = true ∧
    process_table_data "Hold".data "-24-".data [tagAnchor, tagHold24] =
      (List.range ([tagAnchor, tagHold24] : List Tag).length).filterMap
        (fun j => if j = 0 then none
          else emitPair "Hold".data "-24-".data
            (([tagAnchor, tagHold24] : List Tag).getD (j - 1) default)
            (([tagAnchor, tagHold24] : List Tag).getD j default)) :=
  ⟨by decide, by decide,
    c7_lookback_slides "Hold".data "-24-".data (by decide) (by decide)
      [tagAnchor, tagHold24]⟩

/-- Claim C8: the candidate list preserves page row order: mapped into
options, it is a sublist of the per-pair emission stream taken in cell
order, so output order is input order. -/
theorem c8_order_preserved (h y : Str)
    (hh : (parsePattern h).isSome = true)
    (hy : (parsePattern (yearFull y)).isSome = true) (tds : List Tag) :
    List.Sublist ((process_table_data h y tds).map some)
      ((tds.zip tds.tail).map (fun q => emitPair h y q.1 q.2)) := by
  rw [process_eq_zip]
  exact filterMap_map_some_sublist _ _

/-- Witness for C8 on a three-cell page with the default patterns. -/
theorem c8_order_preserved_witness :
    (parsePattern "Hold".data).isSome = true ∧
    (parsePattern (yearFull "-24-".data)).isSome = true ∧
    List.Sublist
      ((process_table_data "Hold".data "-24-".data
        [tagAnchor, tagHold24, tagPlain]).map some)
      ((([tagAnchor, tagHold24, tagPlain] : List Tag).zip
          ([tagAnchor, tagHold24, tagPlain] : List Tag).tail).map
        (fun q => emitPair "Hold".data "-24-".data q.1 q.2)) :=
  ⟨by decide, by decide,
    c8_order_preserved "Hold".data "-24-".data (by decide) (by decide)
      [tagAnchor, tagHold24, tagPlain]⟩

/-- Claim C9 (implicit): the first cell never produces a candidate, even
when its text double-matches, because the lookback slot starts empty;
every emitted candidate originates at a position 1 or later, paired with
the cell before it. -/
theorem c9_first_cell_never (h y : Str)
    (hh : (parsePattern h).isSome = true)
    (hy : (parsePattern (yearFull y)).isSome = true) :
    (∀ td : Tag, process_table_data h y [td] = []) ∧
    (∀ (tds : List Tag) (l : LinkInfo), l ∈ process_table_data h y tds →
      ∃ j, 1 ≤ j ∧ j < tds.length ∧
        emitPair h y (tds.getD (j - 1) default) (tds.getD j default) =
          some l) := by
  constructor
  · intro td
    show processAux h y none [td] = []
    rw [processAux_cons]
    simp [processAux]
  · intro tds l hl
    rw [process_eq_range] at hl
    obtain ⟨j, hj, hjl⟩ := List.mem_filterMap.mp hl
    rw [List.mem_range] at hj
    by_cases h0 : j = 0
    · subst h0
      simp at hjl
    · exact ⟨j, by omega, hj, by simpa [h0] using hjl⟩

/-- Witness for C9: a double-matching lone cell yields nothing, and the
one candidate of a two-cell page originates at position 1. -/
theorem c9_first_cell_never_witness :
    (parsePattern "Hold".data).isSome = true ∧
    (parsePattern (yearFull "-24-".data)).isSome = true ∧
    process_table_data "Hold".data "-24-".data [tagHold24] = [] ∧
    ∃ j, 1 ≤ j ∧ j < ([tagAnchor, tagHold24] : List Tag).length ∧
      emitPair "Hold".data "-24-".data
        (([tagAnchor, tagHold24] : List Tag).getD (j - 1) default)
        (([tagAnchor, tagHold24] : List Tag).getD j default) =
        some linkBuddy :=
  ⟨by decide, by decide,
    (c9_first_cell_never "Hold".data "-24-".data
      (by decide) (by decide)).1 tagHold24,
    (c9_first_cell_never "Hold".data "-24-".data
      (by decide) (by decide)).2 [tagAnchor, tagHold24] linkBuddy
      (by decide)⟩

/-- Claim C10 (implicit): the configured tokens are regex patterns, not
literal substrings, and the hold pattern is anchored at the start of the
cell text: pages whose every cell lacks the hold keyword as a prefix
yield nothing, a cell whose keyword sits after a leading line break
yields nothing despite containing both tokens, and wildcard dots in the
configured tokens accept texts that contain neither token literally. -/
theorem c10_regex_semantics (y : Str) (tds : List Tag)
    (hnp : ∀ td ∈ tds, ¬ ("Hold".data <+: td.text)) :
    process_table_data "Hold".data y tds = [] ∧
    (reMatch false "H.ld".data "Hxld".data = true ∧
      ¬ (("H.ld".data : Str) <:+: "Hxld".data)) ∧
    process_table_data "Hold".data "-24-".data [tagAnchor, tagHoldNL] =
      [] ∧
    process_table_data "H.ld".data "-2.-".data [tagAnchor, tagHxld] =
      [{ href := "animal7".data, filename := "Buddy-Hxld-2X-".data }] := by
  refine ⟨?_, by decide, by decide, by decide⟩
  rw [process_eq_zip]
  apply List.filterMap_eq_nil_iff.mpr
  intro q hq
  obtain ⟨q1, q2⟩ := q
  have hmem : q2 ∈ tds := List.mem_of_mem_tail (List.of_mem_zip hq).2
  cases hb : reMatch false "Hold".data q2.text with
  | true =>
    exact absurd
      ((reMatch_plain_iff false "Hold".data q2.text (by decide)).mp hb)
      (hnp q2 hmem)
  | false =>
    simp [emitPair, hb]

/-- Witness for C10: a single cell bearing the tokens only after its
first character produces no candidate. -/
theorem c10_regex_semantics_witness :
    (∀ td ∈ ([tagNoHold] : List Tag), ¬ ("Hold".data <+: td.text)) ∧
    process_table_data "Hold".data "-21-".data [tagNoHold] = [] :=
  ⟨by decide,
    (c10_regex_semantics "-21-".data [tagNoHold] (by decide)).1⟩

end LDAR
